import Mathlib

/-!
Verification of the sector fault injection engine of
`fuse-badsector-simulator.c` (a FUSE layer that makes a disk-image file
behave like a drive with bad sectors and remap-on-write repair).

Shallow embedding conventions:
* C integers (`size_t`, `off_t`, `unsigned long`) are modelled as `Nat`.
  All quantities reached by the analysed executions fit in 63 bits, so the
  only place where machine-width behaviour is observable is the
  `size_t sector_count = last_sector - first_sector + 1` assignment in
  `get_sector_count`, whose signed-to-unsigned wrap-around is modelled
  explicitly by `intToSize` (reduction of an `Int` modulo 2^64).
* FUSE offsets are non-negative, so `off_t` offsets are `Nat`.
* `strtoul(s, &end, 10)` is modelled by `strtoul10`: the value of the
  longest leading digit run together with the unconsumed rest of the
  string.  (None of the inputs analysed contain the leading whitespace or
  sign characters that `strtoul` would additionally skip.)
* The C arrays written by `add_bad_sectors` are modelled as lists,
  enumerating cells in address order exactly as the C code fills them.
* `pread`/`pwrite` against the image file are abstracted by the
  `Outcome.backing offset size` result: the engine hands the (possibly
  clamped) request to the backing store.  `Outcome.zero` is the `return 0`
  path, `Outcome.fault` the `errno = EIO; return -1` path.
* The recursive C parser helpers recurse on a strict suffix of their
  input, so a fuel argument initialised to `length + 1` (an upper bound on
  the recursion depth) makes the Lean versions structurally recursive
  without ever being exhausted on any input.
-/

namespace FuseBadSector

/-- `const static size_t sector_size = 512` -/
def sector_size : Nat := 512

/-- Number of values of the C type `size_t` (64-bit). -/
def USIZE : Nat := 18446744073709551616

/-- Conversion of a signed 64-bit quantity to `size_t`
(reduction modulo 2^64), as performed by the C assignment
`size_t sector_count = last_sector - first_sector + 1;`. -/
def intToSize (i : Int) : Nat := (i % (USIZE : Int)).toNat

/-- Numeric value of a decimal digit character. -/
def digitVal (c : Char) : Nat := c.toNat - '0'.toNat

/-- Accumulating loop of `strtoul(s, &end, 10)`: consume the longest
leading run of decimal digits. -/
def strtoulAux : List Char → Nat → Nat × List Char
  | [], acc => (acc, [])
  | c :: cs, acc =>
      if c.isDigit then strtoulAux cs (acc * 10 + digitVal c)
      else (acc, c :: cs)

/-- `strtoul(s, &end, 10)`: value of the longest leading digit run of `s`
(`0` when there is none) together with the rest of the string starting at
`*end`. -/
def strtoul10 (s : List Char) : Nat × List Char := strtoulAux s 0

/-- Fuelled body of `get_sector_count` (`fuse-badsector-simulator.c`
lines 65-92).  One unit of fuel is consumed per recursive call of the C
function; each recursive call is on a strict suffix of the input, so
`length + 1` fuel is never exhausted. -/
def get_sector_countF : Nat → List Char → Nat
  | 0, _ => 0
  | fuel + 1, s =>
      match strtoul10 s with
      | (first_sector, sector_end) =>
        match sector_end with
        | ',' :: rest => 1 + get_sector_countF fuel rest
        | '-' :: rest =>
            match strtoul10 rest with
            | (last_sector, real_end) =>
              let cnt := intToSize ((last_sector : Int) - (first_sector : Int) + 1)
              match real_end with
              | ',' :: rest2 => cnt + get_sector_countF fuel rest2
              | _ => cnt
        | _ => 1

/-- `get_sector_count(sector_list)`: number of bad sectors obtained by
parsing the sector-list argument. -/
def get_sector_count (s : List Char) : Nat := get_sector_countF (s.length + 1) s

/-- Fuelled body of `add_bad_sectors` (`fuse-badsector-simulator.c`
lines 95-119), as the list of array cells it writes, in address order:
`sector_array[0] = first_sector`, then for a range the loop
`for (i = first_sector + 1; i <= last_sector; i++)` writes
`last_sector - first_sector` further cells (none when
`last_sector < first_sector + 1`), then the recursion continues at the
next free cell. -/
def add_bad_sectorsF : Nat → List Char → List Nat
  | 0, _ => []
  | fuel + 1, s =>
      match strtoul10 s with
      | (first_sector, sector_end) =>
        match sector_end with
        | ',' :: rest => first_sector :: add_bad_sectorsF fuel rest
        | '-' :: rest =>
            match strtoul10 rest with
            | (last_sector, real_end) =>
              let seg := first_sector ::
                List.range' (first_sector + 1) (last_sector - first_sector)
              match real_end with
              | ',' :: rest2 => seg ++ add_bad_sectorsF fuel rest2
              | _ => seg
        | _ => [first_sector]

/-- `add_bad_sectors(sector_list, bad_sectors)`: the bad-sector array
produced by parsing the sector-list argument. -/
def add_bad_sectors (s : List Char) : List Nat := add_bad_sectorsF (s.length + 1) s

/-- `build_bad_sector_list(sector_list)` (lines 122-131): a `NULL`
argument (bad-sector option absent) leaves the globals at
`bad_sector_count = 0`, `bad_sectors = NULL`; otherwise the array is
filled by `add_bad_sectors`.  (The C code sizes the allocation with
`get_sector_count`, which agrees with the number of cells
`add_bad_sectors` writes on every input whose range terms `N-M` satisfy
`N ≤ M`; the theorems below about malformed inputs also state what
`get_sector_count` returns there.) -/
def build_bad_sector_list : Option (List Char) → List Nat
  | none => []
  | some s => add_bad_sectors s

/-- The engine state: the globals `bad_sectors` (with `bad_sector_count`
its length), `reserve_sectors` and the cached `disk_size`. -/
structure Engine where
  bad_sectors : List Nat
  reserve_sectors : Nat
  disk_size : Nat
deriving DecidableEq, Repr

/-- The search-and-remove loop of `repair_bad_sector` (lines 143-160):
scan the array left to right; at the first cell equal to `sector`, remove
that cell (the C code reallocates and copies the cells before and after
index `i`) and report success; report failure when no cell matches. -/
def repairScan : List Nat → Nat → Option (List Nat)
  | [], _ => none
  | b :: bs, sector =>
      if b = sector then some bs
      else
        match repairScan bs sector with
        | some bs' => some (b :: bs')
        | none => none

/-- `repair_bad_sector(sector)` (lines 136-164): returns `0` on success
and `-1` on error, together with the updated globals.  The reserve check
guards the whole search; on success one array cell is removed and
`reserve_sectors` is decremented. -/
def repair_bad_sector (sector : Nat) (st : Engine) : Int × Engine :=
  if 0 < st.reserve_sectors then
    match repairScan st.bad_sectors sector with
    | some bs =>
        (0, { st with bad_sectors := bs, reserve_sectors := st.reserve_sectors - 1 })
    | none => (-1, st)
  else (-1, st)

/-- Result of a read or write request, as seen at the boundary to the
backing store: `zero` is the `return 0` path taken at or past the device
end, `fault` is the `errno = EIO; return -1` path, and
`backing offset size` records that the request was handed to
`pread`/`pwrite` with those arguments. -/
inductive Outcome where
  | zero
  | fault
  | backing (offset size : Nat)
deriving DecidableEq, Repr

/-- The length clamp shared by `read_callback` and `write_callback`:
`if (offset + size > len) size = len - offset;`. -/
def clampedSize (offset size len : Nat) : Nat :=
  if offset + size > len then len - offset else size

/-- Ceiling division, for stating the last-sector formula. -/
def ceilDiv (a b : Nat) : Nat := (a + b - 1) / b

/-- The sector range scanned by both callbacks:
`first_sector = offset / sector_size`,
`last_sector = (offset + size + sector_size - 1) / sector_size`, and the
loop `for (sector = first_sector; sector <= last_sector; sector++)`
visits `first_sector .. last_sector` inclusively. -/
def sectorRange (offset size : Nat) : List Nat :=
  let first_sector := offset / sector_size
  let last_sector := (offset + size + sector_size - 1) / sector_size
  List.range' first_sector (last_sector - first_sector + 1)

/-- The nested scan loop of `write_callback` (lines 267-276): for each
sector of the range in ascending order, the inner loop looks the sector
up in the current bad-sector array; on a hit, `repair_bad_sector` is
called: success `break`s to the next sector, failure aborts the whole
write.  Returns (scan completed?, final state, number of successful
repairs performed). -/
def scanSectors : List Nat → Engine → Bool × Engine × Nat
  | [], st => (true, st, 0)
  | sector :: rest, st =>
      if sector ∈ st.bad_sectors then
        let r := repair_bad_sector sector st
        if r.1 = 0 then
          let t := scanSectors rest r.2
          (t.1, t.2.1, t.2.2 + 1)
        else (false, r.2, 0)
      else scanSectors rest st

/-- `read_callback` (lines 209-243), file-path branch: clamp, check the
sector range against the bad-sector array (nested loops, lines 230-236),
and either fault or delegate to `pread`.  The engine state is returned
unchanged: the read path never mutates the globals. -/
def read_callback (offset size : Nat) (st : Engine) : Outcome × Engine :=
  let len := st.disk_size
  if offset ≥ len then (Outcome.zero, st)
  else
    let sz := clampedSize offset size len
    if (sectorRange offset sz).any (fun sector => st.bad_sectors.any (fun b => sector == b)) then
      (Outcome.fault, st)
    else (Outcome.backing offset sz, st)

/-- `write_callback` (lines 246-283), file-path branch: clamp, scan the
sector range repairing bad sectors, and either fault (aborting the call
before `pwrite`) or delegate to `pwrite` with the clamped size.  The
third component counts the successful repairs performed by the call (the
C function exposes this through the mutated globals). -/
def write_callback (offset size : Nat) (st : Engine) : Outcome × Engine × Nat :=
  let len := st.disk_size
  if offset ≥ len then (Outcome.zero, st, 0)
  else
    let sz := clampedSize offset size len
    let t := scanSectors (sectorRange offset sz) st
    if t.1 then (Outcome.backing offset sz, t.2.1, t.2.2)
    else (Outcome.fault, t.2.1, t.2.2)

/-- A runtime request against the engine (the two operations that touch
the fault state). -/
inductive DiskOp where
  | read (offset size : Nat)
  | write (offset size : Nat)

/-- Effect of one request on the engine state, together with the number
of successful repairs it performed. -/
def applyOp : DiskOp → Engine → Engine × Nat
  | DiskOp.read offset size, st => ((read_callback offset size st).2, 0)
  | DiskOp.write offset size, st =>
      ((write_callback offset size st).2.1, (write_callback offset size st).2.2)

/-- Run a sequence of requests, accumulating the total number of
successful repairs. -/
def runOps : List DiskOp → Engine → Engine × Nat
  | [], st => (st, 0)
  | op :: ops, st =>
      ((runOps ops (applyOp op st).1).1,
       (applyOp op st).2 + (runOps ops (applyOp op st).1).2)

end FuseBadSector

namespace FuseBadSector

/-- The search-and-remove loop finds a cell exactly when the sector is in
the array, and then removes the first occurrence. -/
theorem repairScan_eq (l : List Nat) (s : Nat) :
    repairScan l s = if s ∈ l then some (l.erase s) else none := by
  induction l with
  | nil => simp [repairScan]
  | cons b bs ih =>
      by_cases hb : b = s
      · subst hb
        simp [repairScan, List.erase_cons_head]
      · simp only [repairScan, if_neg hb, ih, List.erase_cons]
        by_cases hs : s ∈ bs
        · simp [hs, hb, List.mem_cons, beq_iff_eq, Ne.symm hb]
        · simp [hs, hb, List.mem_cons, Ne.symm hb]

/-- A successful repair removes the first occurrence of the sector from
the array and decrements the reserve count; success happens exactly when
the sector is present and a reserve sector is available. -/
theorem repair_succ_iff (sector : Nat) (st : Engine) :
    (repair_bad_sector sector st).1 = 0 ↔
      sector ∈ st.bad_sectors ∧ 0 < st.reserve_sectors := by
  unfold repair_bad_sector
  by_cases hr : 0 < st.reserve_sectors
  · rw [if_pos hr, repairScan_eq]
    by_cases hm : sector ∈ st.bad_sectors
    · simp [hm, hr]
    · simp [hm]
  · rw [if_neg hr]
    simp [hr]

/-- State after a successful repair. -/
theorem repair_succ_state (sector : Nat) (st : Engine)
    (h : (repair_bad_sector sector st).1 = 0) :
    (repair_bad_sector sector st).2 =
      { st with bad_sectors := st.bad_sectors.erase sector,
                reserve_sectors := st.reserve_sectors - 1 } := by
  have hc := (repair_succ_iff sector st).mp h
  unfold repair_bad_sector
  rw [if_pos hc.2, repairScan_eq, if_pos hc.1]

/-- A failed repair leaves the state untouched. -/
theorem repair_fail_state (sector : Nat) (st : Engine)
    (h : (repair_bad_sector sector st).1 ≠ 0) :
    (repair_bad_sector sector st).2 = st := by
  unfold repair_bad_sector at h ⊢
  by_cases hr : 0 < st.reserve_sectors
  · rw [if_pos hr] at h ⊢
    rw [repairScan_eq] at h ⊢
    by_cases hm : sector ∈ st.bad_sectors
    · rw [if_pos hm] at h
      exact absurd rfl h
    · rw [if_neg hm]
  · rw [if_neg hr]

/-- Accounting for a successful repair: exactly one array cell is
removed, exactly one reserve sector is consumed, the array shrinks to a
sublist of itself, and the geometry is untouched. -/
theorem repair_succ_accounting (sector : Nat) (st : Engine)
    (h : (repair_bad_sector sector st).1 = 0) :
    (repair_bad_sector sector st).2.bad_sectors.length + 1 = st.bad_sectors.length
    ∧ (repair_bad_sector sector st).2.reserve_sectors + 1 = st.reserve_sectors
    ∧ List.Sublist (repair_bad_sector sector st).2.bad_sectors st.bad_sectors
    ∧ (repair_bad_sector sector st).2.disk_size = st.disk_size := by
  have hc := (repair_succ_iff sector st).mp h
  rw [repair_succ_state sector st h]
  refine ⟨List.length_erase_add_one hc.1, ?_, List.erase_sublist _ _, rfl⟩
  show st.reserve_sectors - 1 + 1 = st.reserve_sectors
  omega

/-- The scan loop of `write_callback` only ever shrinks the bad-sector
array and the reserve count, by exactly one per successful repair, and
never touches the device geometry. -/
theorem scanSectors_accounting (secs : List Nat) (st : Engine) :
    (scanSectors secs st).2.1.bad_sectors.length + (scanSectors secs st).2.2
        = st.bad_sectors.length
    ∧ (scanSectors secs st).2.1.reserve_sectors + (scanSectors secs st).2.2
        = st.reserve_sectors
    ∧ List.Sublist (scanSectors secs st).2.1.bad_sectors st.bad_sectors
    ∧ (scanSectors secs st).2.1.disk_size = st.disk_size := by
  induction secs generalizing st with
  | nil => simp [scanSectors]
  | cons sector rest ih =>
      by_cases hm : sector ∈ st.bad_sectors
      · by_cases hs : (repair_bad_sector sector st).1 = 0
        · have hacc := repair_succ_accounting sector st hs
          have hrest := ih (repair_bad_sector sector st).2
          simp only [scanSectors, if_pos hm, if_pos hs]
          refine ⟨by omega, by omega, ?_, by omega⟩
          exact hrest.2.2.1.trans hacc.2.2.1
        · have hst := repair_fail_state sector st hs
          simp only [scanSectors, if_pos hm, if_neg hs, hst]
          simp
      · simp only [scanSectors, if_neg hm]
        exact ih st

/-- Splitting the scan at a point where every earlier sector has been
handled successfully. -/
theorem scanSectors_append_true (xs : List Nat) (st st' : Engine) (k : Nat)
    (h : scanSectors xs st = (true, st', k)) (ys : List Nat) :
    scanSectors (xs ++ ys) st =
      ((scanSectors ys st').1, (scanSectors ys st').2.1,
       (scanSectors ys st').2.2 + k) := by
  induction xs generalizing st k with
  | nil =>
      simp only [scanSectors, Prod.mk.injEq] at h
      obtain ⟨-, h2, h3⟩ := h
      subst h2
      subst h3
      simp
  | cons sector rest ih =>
      by_cases hm : sector ∈ st.bad_sectors
      · by_cases hs : (repair_bad_sector sector st).1 = 0
        · simp only [scanSectors, if_pos hm, if_pos hs] at h
          rcases hscan : scanSectors rest (repair_bad_sector sector st).2 with ⟨b, stm, m⟩
          rw [hscan] at h
          simp only [Prod.mk.injEq] at h
          obtain ⟨hb, hstm, hk⟩ := h
          subst hb
          subst hstm
          have hrec := ih (repair_bad_sector sector st).2 m hscan
          simp only [List.append_eq] at hrec
          simp only [List.cons_append, scanSectors, if_pos hm, if_pos hs, List.append_eq,
            hrec, Prod.mk.injEq]
          exact ⟨trivial, trivial, by omega⟩
        · simp only [scanSectors, if_pos hm, if_neg hs, Prod.mk.injEq] at h
          exact absurd h.1 (by simp)
      · simp only [scanSectors, if_neg hm] at h
        simp only [List.cons_append, scanSectors, if_neg hm]
        exact ih st k h

/-- The read path never changes the engine state. -/
theorem read_callback_state (offset size : Nat) (st : Engine) :
    (read_callback offset size st).2 = st := by
  unfold read_callback
  by_cases h1 : offset ≥ st.disk_size
  · rw [if_pos h1]
  · rw [if_neg h1]
    by_cases h2 : (sectorRange offset (clampedSize offset size st.disk_size)).any
        (fun sector => st.bad_sectors.any (fun b => sector == b))
    · simp only [if_pos h2]
    · simp only [if_neg h2]

end FuseBadSector

namespace FuseBadSector

/-- C1: a write whose sector range is scanned in ascending order aborts
the entire call with a device-fault as soon as it reaches a bad sector
whose repair fails; nothing is handed to the backing store (the outcome
is `fault`, not `backing`), and the final state is exactly the state
after the sectors scanned earlier — the `k` repairs already performed in
this same scan remain in effect. -/
theorem write_abort_partial_effect (offset size : Nat) (st st1 : Engine)
    (pre : List Nat) (s : Nat) (post : List Nat) (k : Nat)
    (hoff : offset < st.disk_size)
    (hrange : sectorRange offset (clampedSize offset size st.disk_size) = pre ++ s :: post)
    (hpre : scanSectors pre st = (true, st1, k))
    (hbad : s ∈ st1.bad_sectors)
    (hfail : (repair_bad_sector s st1).1 ≠ 0) :
    write_callback offset size st = (Outcome.fault, st1, k) := by
  have hnot : ¬ offset ≥ st.disk_size := by omega
  have hu : scanSectors (s :: post) st1 = (false, st1, 0) := by
    simp only [scanSectors, if_pos hbad, if_neg hfail, repair_fail_state s st1 hfail]
  have hsc2 : scanSectors (sectorRange offset (clampedSize offset size st.disk_size)) st
      = (false, st1, k) := by
    rw [hrange, scanSectors_append_true pre st st1 k hpre (s :: post), hu]
    simp
  simp only [write_callback]
  rw [if_neg hnot, hsc2]
  simp

/-- Witness for C1: the spec's own scenario — reserve 1, bad set
`{10, 11}`, one write touching both sectors (offset 5120, 500 bytes on an
8192-byte device covers exactly sectors 10 and 11): sector 10 is
repaired, the call faults at sector 11, and afterwards the bad set is
`{11}` with no reserve left and nothing written to the backing store. -/
theorem write_abort_partial_effect_witness :
    write_callback 5120 500 ⟨[10, 11], 1, 8192⟩ = (Outcome.fault, ⟨[11], 0, 8192⟩, 1) :=
  write_abort_partial_effect 5120 500 ⟨[10, 11], 1, 8192⟩ ⟨[11], 0, 8192⟩ [10] 11 [] 1
    (by decide) (by decide) (by decide) (by decide) (by decide)

/-- C2: `repair_bad_sector` succeeds (returns `0`) exactly when the
sector is in the bad-sector list and a reserve sector is available; on
success it removes that sector (and nothing else) and consumes exactly
one reserve sector; on failure it returns nonzero and leaves the whole
state unchanged.  The no-duplicates hypothesis reflects the data model
(`BadSectorSet` is a set of unique sector indices). -/
theorem repair_contract (sector : Nat) (st : Engine)
    (hnd : st.bad_sectors.Nodup) :
    ((repair_bad_sector sector st).1 = 0 ↔
       sector ∈ st.bad_sectors ∧ 0 < st.reserve_sectors)
    ∧ ((repair_bad_sector sector st).1 = 0 →
         sector ∉ (repair_bad_sector sector st).2.bad_sectors
         ∧ (repair_bad_sector sector st).2.bad_sectors.length + 1 = st.bad_sectors.length
         ∧ (repair_bad_sector sector st).2.reserve_sectors + 1 = st.reserve_sectors
         ∧ (repair_bad_sector sector st).2.disk_size = st.disk_size
         ∧ ∀ x, x ≠ sector →
             (x ∈ (repair_bad_sector sector st).2.bad_sectors ↔ x ∈ st.bad_sectors))
    ∧ ((repair_bad_sector sector st).1 ≠ 0 → (repair_bad_sector sector st).2 = st) := by
  refine ⟨repair_succ_iff sector st, ?_, repair_fail_state sector st⟩
  intro h
  have hacc := repair_succ_accounting sector st h
  have hst := repair_succ_state sector st h
  refine ⟨?_, hacc.1, hacc.2.1, hacc.2.2.2, ?_⟩
  · rw [hst]
    show sector ∉ st.bad_sectors.erase sector
    intro hmem
    exact (hnd.mem_erase_iff.mp hmem).1 rfl
  · intro x hx
    rw [hst]
    show x ∈ st.bad_sectors.erase sector ↔ x ∈ st.bad_sectors
    exact List.mem_erase_of_ne hx

/-- Witness for C2: repairing sector 10 in state (bad `{10, 11}`,
reserve 1) removes 10 and consumes the one reserve sector. -/
theorem repair_contract_witness :
    10 ∉ (repair_bad_sector 10 ⟨[10, 11], 1, 8192⟩).2.bad_sectors
    ∧ (repair_bad_sector 10 ⟨[10, 11], 1, 8192⟩).2.reserve_sectors + 1 = 1 := by
  have h := (repair_contract 10 ⟨[10, 11], 1, 8192⟩ (by decide)).2.1 (by decide)
  exact ⟨h.1, h.2.2.1⟩

/-- C3: a read whose computed (clamped) sector range contains a bad
sector fails with a device-fault: the result is `fault` (so the backing
store's `pread` is never invoked) and the engine state — bad-sector list
and reserve count — is returned unchanged. -/
theorem read_bad_sector_faults (offset size : Nat) (st : Engine) (s : Nat)
    (hoff : offset < st.disk_size)
    (hs : s ∈ sectorRange offset (clampedSize offset size st.disk_size))
    (hbad : s ∈ st.bad_sectors) :
    read_callback offset size st = (Outcome.fault, st) := by
  have hnot : ¬ offset ≥ st.disk_size := by omega
  have hany : (sectorRange offset (clampedSize offset size st.disk_size)).any
      (fun sector => st.bad_sectors.any (fun b => sector == b)) = true := by
    refine List.any_eq_true.mpr ⟨s, hs, ?_⟩
    exact List.any_eq_true.mpr ⟨s, hbad, by simp⟩
  simp only [read_callback]
  rw [if_neg hnot, if_pos hany]

/-- Witness for C3: with sector 10 bad and no reserve, a 10-byte read at
offset 5120 (inside sector 10) faults and changes nothing. -/
theorem read_bad_sector_faults_witness :
    read_callback 5120 10 ⟨[10], 0, 8192⟩ = (Outcome.fault, ⟨[10], 0, 8192⟩) :=
  read_bad_sector_faults 5120 10 ⟨[10], 0, 8192⟩ 10 (by decide) (by decide) (by decide)

end FuseBadSector

namespace FuseBadSector

/-- C4: the sector range both callbacks check runs from
`offset / sector_size` through `ceilDiv(offset + length, sector_size)`
inclusively (that last sector really is visited), the read decision
depends on exactly that range of the clamped length, and when
`offset + length` is an exact multiple of `sector_size` the last checked
sector is one past the sector of the last byte actually touched. -/
theorem sector_range_formula (offset size : Nat) :
    sectorRange offset size =
      List.range' (offset / sector_size)
        (ceilDiv (offset + size) sector_size - offset / sector_size + 1)
    ∧ (∀ st : Engine, offset < st.disk_size →
         ((read_callback offset size st).1 = Outcome.fault ↔
           ∃ s, s ∈ sectorRange offset (clampedSize offset size st.disk_size)
             ∧ s ∈ st.bad_sectors))
    ∧ ceilDiv (offset + size) sector_size ∈ sectorRange offset size
    ∧ ((offset + size) % sector_size = 0 → 0 < size →
         offset / sector_size ≤ (offset + size - 1) / sector_size
         ∧ ceilDiv (offset + size) sector_size = (offset + size - 1) / sector_size + 1) := by
  refine ⟨rfl, ?_, ?_, ?_⟩
  · intro st hlt
    have hnot : ¬ offset ≥ st.disk_size := by omega
    simp only [read_callback]
    rw [if_neg hnot]
    by_cases hany : (sectorRange offset (clampedSize offset size st.disk_size)).any
        (fun sector => st.bad_sectors.any (fun b => sector == b)) = true
    · rw [if_pos hany]
      simp only [List.any_eq_true, beq_iff_eq] at hany
      obtain ⟨s, hs, b, hb, rfl⟩ := hany
      exact ⟨fun _ => ⟨s, hs, hb⟩, fun _ => rfl⟩
    · rw [if_neg hany]
      simp only [List.any_eq_true, beq_iff_eq] at hany
      push_neg at hany
      constructor
      · intro hf
        exact absurd hf (by simp)
      · rintro ⟨s, hs, hb⟩
        exact absurd rfl (hany s hs s hb)
  · have hfl : offset / sector_size ≤ (offset + size + sector_size - 1) / sector_size :=
      Nat.div_le_div_right (by simp only [sector_size]; omega)
    show ceilDiv (offset + size) sector_size ∈
      List.range' (offset / sector_size)
        ((offset + size + sector_size - 1) / sector_size - offset / sector_size + 1)
    have he : ceilDiv (offset + size) sector_size
        = (offset + size + sector_size - 1) / sector_size := rfl
    rw [he]
    refine List.mem_range'_1.mpr ⟨hfl, ?_⟩
    generalize offset / sector_size = a at hfl ⊢
    generalize (offset + size + sector_size - 1) / sector_size = b at hfl ⊢
    omega
  · intro h hsz
    obtain ⟨k, hk⟩ := Nat.dvd_of_mod_eq_zero h
    have hk1 : 1 ≤ k := by
      by_contra hcon
      simp only [sector_size] at hk
      omega
    refine ⟨Nat.div_le_div_right (by omega), ?_⟩
    simp only [ceilDiv, sector_size] at hk ⊢
    rw [hk]
    have e1 : 512 * k + 512 - 1 = 512 * k + 511 := by omega
    have e2 : 512 * k - 1 = 512 * (k - 1) + 511 := by omega
    rw [e1, e2, Nat.mul_add_div (by norm_num), Nat.mul_add_div (by norm_num)]
    omega

/-- Witness for C4 at offset 0, length 512 on a 4096-byte device with
sector 1 bad: the request touches only sector 0 (bytes 0-511), yet the
checked range is sectors 0-1 and the read faults on the untouched
sector 1 — the boundary quirk in action. -/
theorem sector_range_formula_witness :
    ((read_callback 0 512 ⟨[1], 0, 4096⟩).1 = Outcome.fault ↔
       ∃ s, s ∈ sectorRange 0 (clampedSize 0 512 4096) ∧ s ∈ [1])
    ∧ ceilDiv (0 + 512) sector_size = (0 + 512 - 1) / sector_size + 1 := by
  have h := sector_range_formula 0 512
  exact ⟨h.2.1 ⟨[1], 0, 4096⟩ (by decide), (h.2.2.2 (by decide) (by decide)).2⟩

/-- C5: a request at or past the device end returns zero bytes without a
fault and without touching the backing store; a request that starts
inside the device but overruns the end behaves exactly like the request
for the clamped length `deviceSize - offset` — the clamp happens before
the sector range is computed and before the backing store is invoked,
and the truncation itself raises no fault. -/
theorem out_of_range_requests (offset size : Nat) (st : Engine) :
    (offset ≥ st.disk_size →
       read_callback offset size st = (Outcome.zero, st)
       ∧ write_callback offset size st = (Outcome.zero, st, 0))
    ∧ (offset < st.disk_size → st.disk_size < offset + size →
       read_callback offset size st = read_callback offset (st.disk_size - offset) st
       ∧ write_callback offset size st = write_callback offset (st.disk_size - offset) st) := by
  constructor
  · intro h
    constructor
    · simp only [read_callback]
      rw [if_pos h]
    · simp only [write_callback]
      rw [if_pos h]
  · intro h1 h2
    have hc1 : clampedSize offset size st.disk_size = st.disk_size - offset := by
      unfold clampedSize
      rw [if_pos h2]
    have hc2 : clampedSize offset (st.disk_size - offset) st.disk_size
        = st.disk_size - offset := by
      unfold clampedSize
      rw [if_neg (by omega)]
    constructor
    · simp only [read_callback, hc1, hc2]
    · simp only [write_callback, hc1, hc2]

/-- Witness for C5: on a 100-byte device, a 7-byte read at offset 100
returns zero bytes, and a 100-byte write at offset 50 behaves exactly
like the 50-byte write at offset 50. -/
theorem out_of_range_requests_witness :
    read_callback 100 7 ⟨[], 0, 100⟩ = (Outcome.zero, ⟨[], 0, 100⟩)
    ∧ write_callback 50 100 ⟨[], 0, 100⟩ = write_callback 50 50 ⟨[], 0, 100⟩ := by
  refine ⟨((out_of_range_requests 100 7 ⟨[], 0, 100⟩).1 (by decide)).1, ?_⟩
  exact ((out_of_range_requests 50 100 ⟨[], 0, 100⟩).2 (by decide) (by decide)).2

end FuseBadSector

namespace FuseBadSector

/-- C6: parsing a well-formed non-empty spec expands range terms eagerly
into the inclusive run of sectors and concatenates them with the
single-number terms: `"0-4"` yields `{0,1,2,3,4}` and `"1,3,5-7"` yields
`{1,3,5,6,7}` (with `get_sector_count` agreeing on the element count);
in general a spec ending in a range term `N-M` with `N ≤ M` produces
exactly the explicit list `N, N+1, ..., M`. -/
theorem parse_range_expansion :
    add_bad_sectors "0-4".data = [0, 1, 2, 3, 4]
    ∧ add_bad_sectors "1,3,5-7".data = [1, 3, 5, 6, 7]
    ∧ get_sector_count "0-4".data = 5
    ∧ get_sector_count "1,3,5-7".data = 5
    ∧ ∀ (s rest : List Char) (first_sector last_sector : Nat),
        strtoul10 s = (first_sector, '-' :: rest) →
        strtoul10 rest = (last_sector, []) →
        first_sector ≤ last_sector →
        add_bad_sectors s = List.range' first_sector (last_sector - first_sector + 1) := by
  refine ⟨by decide, by decide, by decide, by decide, ?_⟩
  intro s rest first_sector last_sector h1 h2 hle
  show add_bad_sectorsF (s.length + 1) s = _
  simp only [add_bad_sectorsF, h1, h2]
  rw [List.range'_succ]

/-- Witness for C6's general range-expansion clause at the spec `"1-3"`:
the parsed array is the eagerly expanded `[1, 2, 3]`. -/
theorem parse_range_expansion_witness :
    add_bad_sectors ['1', '-', '3'] = List.range' 1 3 :=
  parse_range_expansion.2.2.2.2 ['1', '-', '3'] ['3'] 1 3 (by decide) (by decide)
    (by decide)

/-- C7 counterexample: parsing the literal empty spec string does NOT
yield the empty set.  `strtoul` consumes no digits of `""` and returns 0,
`*sector_end` is the terminator, so `get_sector_count("") = 1` and the
constructed bad-sector array is `{0}`: sector 0 is marked bad. -/
theorem parse_empty_string_not_empty :
    build_bad_sector_list (some "".data) = [0]
    ∧ build_bad_sector_list (some "".data) ≠ []
    ∧ get_sector_count "".data = 1 := by decide

/-- C7 amended: only an ABSENT bad-sector spec (a `NULL` list argument,
i.e. the `-s` option not given) yields the empty set of bad sectors; the
literal empty string instead yields `{0}`. -/
theorem parse_empty_amended :
    build_bad_sector_list none = []
    ∧ build_bad_sector_list (some "".data) = [0] := by decide

/-- C8 counterexample: the parser has no error path at all.  `parse("x")`
does not fail: the non-numeric token is consumed by `strtoul` as the
value 0 and the parse succeeds with the one-element array `{0}`. -/
theorem parse_malformed_token_no_error :
    build_bad_sector_list (some "x".data) = [0]
    ∧ get_sector_count "x".data = 1 := by decide

/-- C8 amended: malformed input never produces a parse error.  A token
with no digits parses as sector 0 (`"x"` → `{0}`); a range with a
missing upper bound (`"3-"`) parses the missing bound as 0, writes only
the cell `{3}`, and computes the wrapped-around element count
`0 - 3 + 1 = 2^64 - 2` for the allocation. -/
theorem parse_malformed_amended :
    add_bad_sectors "x".data = [0]
    ∧ add_bad_sectors "3-".data = [3]
    ∧ get_sector_count "3-".data = USIZE - 2 := by decide

/-- C9: over any sequence of read/write requests performing `N`
successful repairs in total, the bad-sector count drops by exactly `N`
and the reserve count drops by exactly `N`; no request ever increases
either, and the final bad-sector list is a sublist of the initial one —
so a sector once removed by repair can never reappear. -/
theorem repair_accounting (ops : List DiskOp) (st : Engine) :
    (runOps ops st).1.bad_sectors.length + (runOps ops st).2 = st.bad_sectors.length
    ∧ (runOps ops st).1.reserve_sectors + (runOps ops st).2 = st.reserve_sectors
    ∧ List.Sublist (runOps ops st).1.bad_sectors st.bad_sectors := by
  induction ops generalizing st with
  | nil => simp [runOps]
  | cons op rest ih =>
      have hop : (applyOp op st).1.bad_sectors.length + (applyOp op st).2
            = st.bad_sectors.length
          ∧ (applyOp op st).1.reserve_sectors + (applyOp op st).2 = st.reserve_sectors
          ∧ List.Sublist (applyOp op st).1.bad_sectors st.bad_sectors := by
        cases op with
        | read o sz =>
            simp [applyOp, read_callback_state]
        | write o sz =>
            simp only [applyOp]
            by_cases h : o ≥ st.disk_size
            · simp only [write_callback, if_pos h]
              simp
            · simp only [write_callback, if_neg h]
              have hacc := scanSectors_accounting
                (sectorRange o (clampedSize o sz st.disk_size)) st
              by_cases ht : (scanSectors (sectorRange o (clampedSize o sz st.disk_size)) st).1
                  = true
              · rw [if_pos ht]
                exact ⟨hacc.1, hacc.2.1, hacc.2.2.1⟩
              · rw [if_neg ht]
                exact ⟨hacc.1, hacc.2.1, hacc.2.2.1⟩
      have hrest := ih (applyOp op st).1
      simp only [runOps]
      exact ⟨by omega, by omega, hrest.2.2.trans hop.2.2⟩

/-- C10: a spec listing the same sector twice (`"7,7"`) produces the
array `[7, 7]` with both entries, and the store treats them as separate
bad-sector records: after one successful repair of sector 7 (consuming
one reserve sector) the sector is still bad — a read of it still faults
— and only a second successful repair (consuming a second reserve
sector) stops it from faulting. -/
theorem duplicate_spec_entries :
    build_bad_sector_list (some "7,7".data) = [7, 7]
    ∧ get_sector_count "7,7".data = 2
    ∧ repair_bad_sector 7 ⟨[7, 7], 2, 8192⟩ = (0, ⟨[7], 1, 8192⟩)
    ∧ (read_callback 3584 10 ⟨[7], 1, 8192⟩).1 = Outcome.fault
    ∧ repair_bad_sector 7 ⟨[7], 1, 8192⟩ = (0, ⟨[], 0, 8192⟩)
    ∧ (read_callback 3584 10 ⟨[], 0, 8192⟩).1 = Outcome.backing 3584 10 := by decide

end FuseBadSector
